import Mathlib

/-!
Shallow embedding of `src/discoeb/util.py` (DISCO-EB numerical utilities)
and verification of the specification claims about it.

Conventions of the embedding:
* Python floats are modelled as exact numbers: `ℚ` where the code only uses
  field operations (bisection, Savitzky-Golay), `ℝ`/`ℂ` where the code uses
  transcendental functions (`log`, `sin`, `exp`, complex Lanczos).
* `jax.lax.cond p f g x` evaluates to `f x` when `p` holds and `g x`
  otherwise; it is modelled by `if p then f x else g x`.
* `jnp.where(c, a, b)` is modelled by `if c then a else b` pointwise.
* A Python `for i in range(n)` loop over a state is modelled by a
  `List.foldl` over `List.range n`.
* `raise ValueError(msg)` is modelled by `Except.error msg`; shape errors
  raised by array primitives on mismatched operands are modelled by
  `Option`-valued primitives whose `none` is propagated as a shape error.
-/

open Filter

namespace DiscoEB

/-! ### Bisection root finder

Embedding of `root_find_bisect` (util.py lines 39-70).  The loop body is

    xmid = 0.5 * (xleft + xright)
    xleft, xright = jax.lax.cond(func(xmid, param) * func(xleft, param) > 0,
                                 lambda x: (xmid, xright),
                                 lambda x: (xleft, xmid), None)

and after `numit` such iterations the function returns `0.5 * (xleft + xright)`.
-/

/-- One iteration of the `for` loop of `root_find_bisect`: the state is the
pair `(xleft, xright)`. -/
def bisect_step {α : Type} (func : ℚ → α → ℚ) (param : α) (s : ℚ × ℚ) : ℚ × ℚ :=
  let xmid := 0.5 * (s.1 + s.2)
  if func xmid param * func s.1 param > 0 then (xmid, s.2) else (s.1, xmid)

/-- The `for i in range(numit)` loop of `root_find_bisect`, acting on the
state `(xleft, xright)`. -/
def bisect_iter {α : Type} (func : ℚ → α → ℚ) (param : α) (numit : ℕ)
    (s : ℚ × ℚ) : ℚ × ℚ :=
  (List.range numit).foldl (fun t _ => bisect_step func param t) s

/-- `root_find_bisect(func=func, xleft=xleft, xright=xright, numit=numit,
param=param)`. -/
def root_find_bisect {α : Type} (func : ℚ → α → ℚ) (xleft xright : ℚ)
    (numit : ℕ) (param : α) : ℚ :=
  let s := bisect_iter func param numit (xleft, xright)
  0.5 * (s.1 + s.2)

/-- The bisection step exactly as the specification words it: compute
`xmid = (xleft + xright) / 2`; if `func(xmid, param) * func(xleft, param) > 0`
set `xleft = xmid` keeping `xright`, otherwise set `xright = xmid` keeping
`xleft`. -/
def bisectClaimStep {α : Type} (func : ℚ → α → ℚ) (param : α) (s : ℚ × ℚ) :
    ℚ × ℚ :=
  let xmid := (s.1 + s.2) / 2
  if func xmid param * func s.1 param > 0 then (xmid, s.2) else (s.1, xmid)

lemma bisect_step_def {α : Type} (func : ℚ → α → ℚ) (param : α) (s : ℚ × ℚ) :
    bisect_step func param s =
      if func ((s.1 + s.2) / 2) param * func s.1 param > 0
        then ((s.1 + s.2) / 2, s.2) else (s.1, (s.1 + s.2) / 2) := by
  unfold bisect_step
  rw [show (0.5 : ℚ) * (s.1 + s.2) = (s.1 + s.2) / 2 from by ring]

lemma bisect_step_eq_claimStep {α : Type} (func : ℚ → α → ℚ) (param : α)
    (s : ℚ × ℚ) : bisect_step func param s = bisectClaimStep func param s := by
  rw [bisect_step_def]
  rfl

lemma foldl_range_eq_iterate {β : Type} (f : β → β) :
    ∀ (n : ℕ) (x : β), (List.range n).foldl (fun t _ => f t) x = f^[n] x := by
  intro n
  induction n with
  | zero => intro x; rfl
  | succ n ih =>
      intro x
      rw [List.range_succ, List.foldl_append, ih, Function.iterate_succ_apply']
      rfl

lemma bisect_iter_succ {α : Type} (func : ℚ → α → ℚ) (param : α) (n : ℕ)
    (s : ℚ × ℚ) :
    bisect_iter func param (n + 1) s =
      bisect_step func param (bisect_iter func param n s) := by
  unfold bisect_iter
  rw [List.range_succ, List.foldl_append]
  rfl

/-- C1: `bisect` performs exactly `numit` iterations of the step
`xmid = (xleft + xright)/2; if func(xmid,param)*func(xleft,param) > 0 then
xleft := xmid else xright := xmid`, and afterwards returns the midpoint
`(xleft + xright)/2` of the final bracket; there is no early exit. -/
theorem root_find_bisect_is_iterated_claim_step {α : Type}
    (func : ℚ → α → ℚ) (xleft xright : ℚ) (numit : ℕ) (param : α) :
    root_find_bisect func xleft xright numit param =
      ((bisectClaimStep func param)^[numit] (xleft, xright)).1 / 2 +
        ((bisectClaimStep func param)^[numit] (xleft, xright)).2 / 2 := by
  unfold root_find_bisect bisect_iter
  have hstep : (fun (t : ℚ × ℚ) (_ : ℕ) => bisect_step func param t) =
      fun (t : ℚ × ℚ) (_ : ℕ) => bisectClaimStep func param t := by
    funext t i
    exact bisect_step_eq_claimStep func param t
  rw [hstep, foldl_range_eq_iterate]
  ring

lemma bisect_step_width {α : Type} (func : ℚ → α → ℚ) (param : α)
    (s : ℚ × ℚ) :
    (bisect_step func param s).2 - (bisect_step func param s).1 =
      (s.2 - s.1) / 2 := by
  rw [bisect_step_def]
  split_ifs <;> dsimp only <;> ring

/-- C4: after `numit` bisection iterations the bracket width is exactly
`(xright0 - xleft0) / 2 ^ numit`, independent of which branch of the sign
test is taken at each step (exact rational arithmetic). -/
theorem bisect_iter_width {α : Type} (func : ℚ → α → ℚ) (param : α)
    (numit : ℕ) (xleft xright : ℚ) :
    (bisect_iter func param numit (xleft, xright)).2 -
      (bisect_iter func param numit (xleft, xright)).1 =
      (xright - xleft) / 2 ^ numit := by
  induction numit with
  | zero => simp [bisect_iter]
  | succ n ih =>
      rw [bisect_iter_succ, bisect_step_width, ih]
      ring

lemma bisect_step_le {α : Type} (func : ℚ → α → ℚ) (param : α)
    (s : ℚ × ℚ) (h : s.1 ≤ s.2) :
    (bisect_step func param s).1 ≤ (bisect_step func param s).2 := by
  rw [bisect_step_def]
  split_ifs <;> dsimp only <;> linarith

/-- C5: if the initial bracket satisfies `xleft ≤ xright` then `xleft ≤ xright`
holds after every iteration of the bisection loop (a loop invariant, not
checked or enforced by the code). -/
theorem bisect_iter_le {α : Type} (func : ℚ → α → ℚ) (param : α)
    (numit : ℕ) (xleft xright : ℚ) (h : xleft ≤ xright) :
    (bisect_iter func param numit (xleft, xright)).1 ≤
      (bisect_iter func param numit (xleft, xright)).2 := by
  induction numit with
  | zero => simpa [bisect_iter] using h
  | succ n ih =>
      rw [bisect_iter_succ]
      exact bisect_step_le func param _ ih

/-- Witness for C5 at `func x _ = x`, `xleft = 0`, `xright = 1`, `numit = 3`. -/
theorem bisect_iter_le_witness :
    (0 : ℚ) ≤ 1 ∧
      (bisect_iter (fun x (_ : Unit) => x) () 3 (0, 1)).1 ≤
        (bisect_iter (fun x (_ : Unit) => x) () 3 (0, 1)).2 :=
  ⟨by norm_num, bisect_iter_le (fun x (_ : Unit) => x) () 3 0 1 (by norm_num)⟩

lemma bisect_step_mem {α : Type} (func : ℚ → α → ℚ) (param : α)
    (a b : ℚ) (s : ℚ × ℚ) (h : a ≤ s.1 ∧ s.1 ≤ s.2 ∧ s.2 ≤ b) :
    a ≤ (bisect_step func param s).1 ∧
      (bisect_step func param s).1 ≤ (bisect_step func param s).2 ∧
      (bisect_step func param s).2 ≤ b := by
  obtain ⟨h1, h2, h3⟩ := h
  rw [bisect_step_def]
  split_ifs <;> dsimp only <;>
    exact ⟨by linarith, by linarith, by linarith⟩

lemma bisect_iter_mem {α : Type} (func : ℚ → α → ℚ) (param : α)
    (numit : ℕ) (xleft xright : ℚ) (h : xleft ≤ xright) :
    xleft ≤ (bisect_iter func param numit (xleft, xright)).1 ∧
      (bisect_iter func param numit (xleft, xright)).1 ≤
        (bisect_iter func param numit (xleft, xright)).2 ∧
      (bisect_iter func param numit (xleft, xright)).2 ≤ xright := by
  induction numit with
  | zero =>
      simp only [bisect_iter, List.range_zero, List.foldl_nil]
      exact ⟨le_refl _, h, le_refl _⟩
  | succ n ih =>
      rw [bisect_iter_succ]
      exact bisect_step_mem func param xleft xright _ ih

/-- C10: when `xleft ≤ xright`, the value returned by `root_find_bisect` lies
in the closed initial interval `[xleft, xright]` (no sign-change assumption
on `func` is needed), and with `numit = 0` the function returns the midpoint
of the initial interval without the result depending on `func` at all. -/
theorem root_find_bisect_mem_bracket {α : Type} (func : ℚ → α → ℚ)
    (param : α) (numit : ℕ) (xleft xright : ℚ) (h : xleft ≤ xright) :
    (xleft ≤ root_find_bisect func xleft xright numit param ∧
      root_find_bisect func xleft xright numit param ≤ xright) ∧
    root_find_bisect func xleft xright 0 param = (xleft + xright) / 2 := by
  obtain ⟨h1, h2, h3⟩ := bisect_iter_mem func param numit xleft xright h
  unfold root_find_bisect
  refine ⟨⟨by linarith, by linarith⟩, ?_⟩
  simp [bisect_iter]
  ring

/-- Witness for C10 at `func x _ = x * x - 2`, bracket `[0, 2]`, `numit = 4`. -/
theorem root_find_bisect_mem_bracket_witness :
    (0 : ℚ) ≤ 2 ∧
      ((0 ≤ root_find_bisect (fun x (_ : Unit) => x * x - 2) 0 2 4 () ∧
        root_find_bisect (fun x (_ : Unit) => x * x - 2) 0 2 4 () ≤ 2) ∧
      root_find_bisect (fun x (_ : Unit) => x * x - 2) 0 2 0 () = (0 + 2) / 2) :=
  ⟨by norm_num,
    root_find_bisect_mem_bracket (fun x (_ : Unit) => x * x - 2) () 4 0 2
      (by norm_num)⟩

/-! ### Complex log-gamma

Embedding of `lngamma_complex_e` and its inner function
`lngamma_lanczos_complex` (util.py lines 4-37).  Python complex numbers are
modelled by `ℂ`, `jnp.log`/`jnp.sin` on complex arguments by
`Complex.log`/`Complex.sin`, `jnp.abs` by `Complex.abs`, `jnp.conj` by
`starRingEnd ℂ`, and `jnp.pi` by `Real.pi`.
-/

/-- The coefficient table `lanczos_7_c` of the Lanczos approximation. -/
noncomputable def lanczos_7_c : List ℝ :=
  [0.99999999999980993227684700473478,
   676.520368121885098567009190444019,
   -1259.13921672240287047156078755283,
   771.3234287776530788486528258894,
   -176.61502916214059906584551354,
   12.507343278686904814458936853,
   -0.13857109526572011689554707,
   9.984369578019570859563e-6,
   1.50563273514931155834e-7]

/-- `LogRootTwoPi_` of `lngamma_lanczos_complex`. -/
noncomputable def LogRootTwoPi_ : ℝ := 0.9189385332046727418

/-- `lngamma_lanczos_complex(z)`: the inner Lanczos core.  The code sets
`z = z - 1.0`, forms `Ag = lanczos_7_c[0] + sum(lanczos_7_c[1:] /
abs(z + arange(1,9))**2 * conj(z + arange(1,9)))` (element `k` of the slice
`lanczos_7_c[1:]` pairs with the offset `k+1` from `arange(1,9)`), and
returns `(z+0.5)*log(z+7.5) - (z+7.5) + LogRootTwoPi_ + log(Ag)`. -/
noncomputable def lngamma_lanczos_complex (z : ℂ) : ℂ :=
  let z' := z - 1
  let Ag : ℂ := ((lanczos_7_c.getD 0 0 : ℝ) : ℂ) +
    ∑ k ∈ Finset.range 8,
      ((lanczos_7_c.getD (k + 1) 0 : ℝ) : ℂ) /
        ((Complex.abs (z' + ((k + 1 : ℕ) : ℂ)) ^ 2 : ℝ) : ℂ) *
        (starRingEnd ℂ) (z' + ((k + 1 : ℕ) : ℂ))
  (z' + 0.5) * Complex.log (z' + 7.5) - (z' + 7.5) + ((LogRootTwoPi_ : ℝ) : ℂ) +
    Complex.log Ag

/-- The constant `lnpi` of `lngamma_complex_e`. -/
noncomputable def lnpi : ℝ := 1.14472988584940017414342735135

/-- `lngamma_complex_e(z)`: `jax.lax.cond(real(z) <= 0.5, reflection, direct)`. -/
noncomputable def lngamma_complex_e (z : ℂ) : ℂ :=
  if z.re ≤ 0.5 then
    (lnpi : ℂ) - Complex.log (Complex.sin ((Real.pi : ℝ) * z)) -
      lngamma_lanczos_complex (1 - z)
  else lngamma_lanczos_complex z

/-- C2: the reflection branch is taken exactly when `real(z) ≤ 0.5`, in which
case the result is `lnpi - log(sin(π z)) - LanczosCore(1 - z)` with `lnpi` the
fixed constant `1.14472988584940017414342735135`; when `real(z) > 0.5` the
result is `LanczosCore(z)`.  The selection is a strict predicate branch, not
a blend. -/
theorem lngamma_branch_selection (z : ℂ) :
    (z.re ≤ 0.5 → lngamma_complex_e z =
      (lnpi : ℂ) - Complex.log (Complex.sin ((Real.pi : ℝ) * z)) -
        lngamma_lanczos_complex (1 - z)) ∧
    (0.5 < z.re → lngamma_complex_e z = lngamma_lanczos_complex z) ∧
    lnpi = 1.14472988584940017414342735135 := by
  refine ⟨fun h => ?_, fun h => ?_, rfl⟩
  · unfold lngamma_complex_e
    rw [if_pos h]
  · unfold lngamma_complex_e
    rw [if_neg (not_le.mpr h)]

/-- Witness for C2: the reflection branch at `z = 0` and the direct branch at
`z = 1`. -/
theorem lngamma_branch_selection_witness :
    ((0 : ℂ).re ≤ 0.5 ∧ lngamma_complex_e 0 =
      (lnpi : ℂ) - Complex.log (Complex.sin ((Real.pi : ℝ) * 0)) -
        lngamma_lanczos_complex (1 - 0)) ∧
    (0.5 < (1 : ℂ).re ∧ lngamma_complex_e 1 = lngamma_lanczos_complex 1) :=
  ⟨⟨by norm_num [Complex.zero_re],
      (lngamma_branch_selection 0).1 (by norm_num [Complex.zero_re])⟩,
    ⟨by norm_num [Complex.one_re],
      (lngamma_branch_selection 1).2.1 (by norm_num [Complex.one_re])⟩⟩

/-- The Lanczos core exactly as the specification words it: with `z' = z - 1`,
`Ag = g0 + Σ_{k=1..8} c_k / |z'+k|² * conj(z'+k)` with `g0` the literal
leading constant, and result
`(z'+0.5)·ln(z'+7.5) - (z'+7.5) + LogRootTwoPi + ln(Ag)` with
`LogRootTwoPi = 0.9189385332046727418`. -/
noncomputable def LanczosCoreSpec (z : ℂ) : ℂ :=
  let z' := z - 1
  let Ag : ℂ := ((0.99999999999980993227684700473478 : ℝ) : ℂ) +
    ∑ k ∈ Finset.Icc 1 8,
      ((lanczos_7_c.getD k 0 : ℝ) : ℂ) /
        ((Complex.abs (z' + ((k : ℕ) : ℂ)) ^ 2 : ℝ) : ℂ) *
        (starRingEnd ℂ) (z' + ((k : ℕ) : ℂ))
  (z' + 0.5) * Complex.log (z' + 7.5) - (z' + 7.5) +
    ((0.9189385332046727418 : ℝ) : ℂ) + Complex.log Ag

lemma lanczos_sum_reindex (w : ℂ) :
    ∑ k ∈ Finset.Icc 1 8,
        ((lanczos_7_c.getD k 0 : ℝ) : ℂ) /
          ((Complex.abs (w + ((k : ℕ) : ℂ)) ^ 2 : ℝ) : ℂ) *
          (starRingEnd ℂ) (w + ((k : ℕ) : ℂ))
      = ∑ k ∈ Finset.range 8,
        ((lanczos_7_c.getD (k + 1) 0 : ℝ) : ℂ) /
          ((Complex.abs (w + ((k + 1 : ℕ) : ℂ)) ^ 2 : ℝ) : ℂ) *
          (starRingEnd ℂ) (w + ((k + 1 : ℕ) : ℂ)) := by
  rw [show Finset.Icc 1 8 = Finset.Ico 1 9 from (Nat.Ico_succ_right 1 8).symm,
    Finset.sum_Ico_eq_sum_range]
  refine Finset.sum_congr rfl (fun k _ => ?_)
  rw [Nat.add_comm 1 k]

/-- C3: `lngamma_lanczos_complex` computes exactly the Lanczos-core formula of
the specification (shift `z' = z - 1`, sum `Ag = g0 + Σ_{k=1..8}
c_k / |z'+k|² · conj(z'+k)`, result
`(z'+0.5)·ln(z'+7.5) - (z'+7.5) + LogRootTwoPi + ln(Ag)`), the coefficient
table has exactly 9 entries, its leading entry is
`g0 = 0.99999999999980993227684700473478`, and
`LogRootTwoPi_ = 0.9189385332046727418`. -/
theorem lanczos_core_matches_spec (z : ℂ) :
    lngamma_lanczos_complex z = LanczosCoreSpec z ∧
      lanczos_7_c.length = 9 ∧
      lanczos_7_c.getD 0 0 = 0.99999999999980993227684700473478 ∧
      LogRootTwoPi_ = 0.9189385332046727418 := by
  refine ⟨?_, rfl, rfl, rfl⟩
  simp only [lngamma_lanczos_complex, LanczosCoreSpec, LogRootTwoPi_]
  rw [lanczos_sum_reindex (z - 1),
    show lanczos_7_c.getD 0 0 = (0.99999999999980993227684700473478 : ℝ) from
      rfl]

/-! ### softclip

Embedding of `softclip` (util.py lines 73-78):

    y = jnp.clip(x, a_min, a_max)
    return jnp.where(x < a_min,
                     a_min + jnp.log(jnp.abs(x - a_min) + 1) * jnp.sign(x - a_min),
                     jnp.where(x > a_max,
                               a_max + jnp.log(jnp.abs(x - a_max) + 1) * jnp.sign(x - a_max),
                               y))

`jnp.clip(x, a_min, a_max)` is `min(a_max, max(x, a_min))`.
-/

/-- `softclip(x, a_min, a_max)`. -/
noncomputable def softclip (x a_min a_max : ℝ) : ℝ :=
  let y := min a_max (max x a_min)
  if x < a_min then a_min + Real.log (|x - a_min| + 1) * Real.sign (x - a_min)
  else if x > a_max then a_max + Real.log (|x - a_max| + 1) * Real.sign (x - a_max)
  else y

lemma softclip_of_lt {x a_min a_max : ℝ} (h : x < a_min) :
    softclip x a_min a_max = a_min - Real.log (a_min - x + 1) := by
  unfold softclip
  rw [if_pos h, abs_of_neg (by linarith : x - a_min < 0),
    Real.sign_of_neg (by linarith : x - a_min < 0),
    show -(x - a_min) = a_min - x from by ring]
  ring

lemma softclip_of_gt {x a_min a_max : ℝ} (h1 : ¬ x < a_min) (h2 : a_max < x) :
    softclip x a_min a_max = a_max + Real.log (x - a_max + 1) := by
  unfold softclip
  rw [if_neg h1, if_pos h2, abs_of_pos (by linarith : 0 < x - a_max),
    Real.sign_of_pos (by linarith : 0 < x - a_max)]
  ring

lemma softclip_of_mem {x a_min a_max : ℝ} (h1 : a_min ≤ x) (h2 : x ≤ a_max) :
    softclip x a_min a_max = x := by
  unfold softclip
  rw [if_neg (not_lt.mpr h1), if_neg (not_lt.mpr h2)]
  simp only [max_eq_left h1, min_eq_right h2]

/-- C9: `softclip` is the identity on `[a_min, a_max]`: whenever
`a_min ≤ x ≤ a_max`, `softclip(x, a_min, a_max) = x` exactly. -/
theorem softclip_id_on_interval (x a_min a_max : ℝ)
    (h1 : a_min ≤ x) (h2 : x ≤ a_max) : softclip x a_min a_max = x :=
  softclip_of_mem h1 h2

/-- Witness for C9 at `x = 1/2`, `a_min = 0`, `a_max = 1`. -/
theorem softclip_id_on_interval_witness :
    (0 : ℝ) ≤ 1 / 2 ∧ (1 / 2 : ℝ) ≤ 1 ∧ softclip (1 / 2) 0 1 = 1 / 2 :=
  ⟨by norm_num, by norm_num,
    softclip_id_on_interval (1 / 2) 0 1 (by norm_num) (by norm_num)⟩

lemma softclip_strictMono {a_min a_max : ℝ} (hab : a_min ≤ a_max) :
    StrictMono (fun x => softclip x a_min a_max) := by
  intro x y hxy
  dsimp only
  rcases lt_or_le x a_min with hx | hx
  · rw [softclip_of_lt hx]
    rcases lt_or_le y a_min with hy | hy
    · rw [softclip_of_lt hy]
      have hlog : Real.log (a_min - y + 1) < Real.log (a_min - x + 1) :=
        Real.log_lt_log (by linarith) (by linarith)
      linarith
    · have hlog : 0 < Real.log (a_min - x + 1) := Real.log_pos (by linarith)
      rcases le_or_lt y a_max with hy2 | hy2
      · rw [softclip_of_mem hy hy2]
        linarith
      · rw [softclip_of_gt (not_lt.mpr hy) hy2]
        have hlog2 : 0 < Real.log (y - a_max + 1) := Real.log_pos (by linarith)
        linarith
  · rcases le_or_lt x a_max with hx2 | hx2
    · rw [softclip_of_mem hx hx2]
      rcases le_or_lt y a_max with hy2 | hy2
      · rw [softclip_of_mem (by linarith) hy2]
        exact hxy
      · rw [softclip_of_gt (not_lt.mpr (by linarith)) hy2]
        have hlog : 0 < Real.log (y - a_max + 1) := Real.log_pos (by linarith)
        linarith
    · rw [softclip_of_gt (not_lt.mpr hx) hx2]
      have hy2 : a_max < y := lt_trans hx2 hxy
      rw [softclip_of_gt (not_lt.mpr (by linarith)) hy2]
      have hlog : Real.log (x - a_max + 1) < Real.log (y - a_max + 1) :=
        Real.log_lt_log (by linarith) (by linarith)
      linarith

/-- C6 counterexample: with `a_min = 0 < 1 = a_max`, `softclip` does NOT tend
to `a_min` as `x → -∞` (the claim asserts that limit for every such pair of
bounds); in fact `softclip (1 - e) 0 1 = -1 < a_min = 0`. -/
theorem softclip_not_tendsto_left_bound :
    ¬ Tendsto (fun x => softclip x 0 1) atBot (nhds 0) ∧
      softclip (1 - Real.exp 1) 0 1 = -1 := by
  have hval : softclip (1 - Real.exp 1) 0 1 = -1 := by
    have he : (1 : ℝ) < Real.exp 1 := by
      have := Real.exp_one_gt_d9
      linarith
    rw [softclip_of_lt (by linarith)]
    rw [show (0 : ℝ) - (1 - Real.exp 1) + 1 = Real.exp 1 from by ring,
      Real.log_exp]
    ring
  refine ⟨?_, hval⟩
  intro h
  have hmono : Monotone (fun x => softclip x 0 1) :=
    (softclip_strictMono (by norm_num)).monotone
  have hge := hmono.le_of_tendsto h (1 - Real.exp 1)
  rw [hval] at hge
  linarith

/-- C6 (amended): for `a_min < a_max`, `softclip` is strictly increasing in
`x` (hence non-decreasing and never clamped flat, in particular strictly
increasing outside `[a_min, a_max]`); but instead of tending to `a_min` and
`a_max` it diverges to `-∞` as `x → -∞` and to `+∞` as `x → +∞`. -/
theorem softclip_strictMono_and_diverges (a_min a_max : ℝ)
    (hab : a_min < a_max) :
    StrictMono (fun x => softclip x a_min a_max) ∧
      Tendsto (fun x => softclip x a_min a_max) atBot atBot ∧
      Tendsto (fun x => softclip x a_min a_max) atTop atTop := by
  refine ⟨softclip_strictMono hab.le, ?_, ?_⟩
  · have hlim : Tendsto (fun x : ℝ => a_min - Real.log (a_min - x + 1))
        atBot atBot := by
      have h1 : Tendsto (fun x : ℝ => a_min - x + 1) atBot atTop := by
        have := tendsto_neg_atBot_atTop (β := ℝ)
        have h2 := tendsto_atTop_add_const_left (l := atBot) (a_min + 1) this
        refine h2.congr (fun x => by ring)
      have h3 : Tendsto (fun x : ℝ => Real.log (a_min - x + 1)) atBot atTop :=
        Real.tendsto_log_atTop.comp h1
      have h4 := tendsto_atBot_add_const_left (l := atBot) a_min
        (tendsto_neg_atTop_atBot.comp h3)
      refine h4.congr (fun x => by dsimp; ring)
    refine hlim.congr' ?_
    filter_upwards [eventually_le_atBot (a_min - 1)] with x hx
    rw [softclip_of_lt (by linarith)]
  · have hlim : Tendsto (fun x : ℝ => a_max + Real.log (x - a_max + 1))
        atTop atTop := by
      have h1 : Tendsto (fun x : ℝ => x - a_max + 1) atTop atTop := by
        have h2 := tendsto_atTop_add_const_right atTop (-a_max + 1)
          (tendsto_id (α := ℝ))
        refine h2.congr (fun x => by simp only [id]; ring)
      have h3 : Tendsto (fun x : ℝ => Real.log (x - a_max + 1)) atTop atTop :=
        Real.tendsto_log_atTop.comp h1
      exact tendsto_atTop_add_const_left atTop a_max h3
    refine hlim.congr' ?_
    filter_upwards [eventually_ge_atTop (a_max + 1)] with x hx
    rw [softclip_of_gt (not_lt.mpr (by linarith)) (by linarith)]

/-- Witness for the amended C6 at `a_min = 0`, `a_max = 1`. -/
theorem softclip_strictMono_and_diverges_witness :
    (0 : ℝ) < 1 ∧
      (StrictMono (fun x => softclip x 0 1) ∧
        Tendsto (fun x => softclip x 0 1) atBot atBot ∧
        Tendsto (fun x => softclip x 0 1) atTop atTop) :=
  ⟨by norm_num, softclip_strictMono_and_diverges 0 1 (by norm_num)⟩

/-! ### Savitzky-Golay filter

Embedding of `savgol_filter` (util.py lines 81-118).  1-D arrays are
`List ℚ`, 2-D arrays are `List (List ℚ)` (a list of rows).  The numpy `dot`
primitives raise a shape error when the contracted axes disagree; this is
modelled by `Option`, with `none` propagated by `savgol_filter` as a shape
error.  `raise ValueError(msg)` is `Except.error msg`.
-/

/-- numpy `dot` of two 1-D arrays; `none` models the shape error raised when
the lengths disagree. -/
def dotVV (u v : List ℚ) : Option ℚ :=
  if u.length = v.length then some ((List.zipWith (fun a b => a * b) u v).sum)
  else none

/-- numpy `dot` of a 2-D and a 1-D array: the vector is paired with each row;
`none` models the shape error when a row length differs from the vector
length. -/
def dotMV (m : List (List ℚ)) (v : List ℚ) : Option (List ℚ) :=
  m.mapM (fun row => dotVV row v)

/-- Column `j` of a 2-D array (entries past the end of a row default to `0`;
the arrays built by `savgol_filter` are rectangular, so this is never
exercised). -/
def column (m : List (List ℚ)) (j : ℕ) : List ℚ :=
  m.map (fun row => row.getD j 0)

/-- `jnp.transpose` of a rectangular 2-D array. -/
def transposeM (m : List (List ℚ)) : List (List ℚ) :=
  (List.range (m.headD []).length).map (fun j => column m j)

/-- numpy `dot` of two 2-D arrays (matrix product); `none` models the shape
error when the inner dimensions disagree. -/
def dotMM (m n : List (List ℚ)) : Option (List (List ℚ)) :=
  m.mapM (fun row => (transposeM n).mapM (fun col => dotVV row col))

/-- `jnp.linspace(a, b, n)`. -/
def linspace (a b : ℚ) (n : ℕ) : List ℚ :=
  if n = 1 then [a]
  else (List.range n).map (fun i => a + (b - a) * i / ((n : ℚ) - 1))

/-- `jnp.vander(x, n)`: row `t` holds the decreasing powers
`[t^(n-1), ..., t, 1]`. -/
def vander (x : List ℚ) (n : ℕ) : List (List ℚ) :=
  x.map (fun t => (List.range n).map (fun j => t ^ (n - 1 - j)))

/-- Determinant of a square 2-D array by Laplace expansion along the first
row. -/
def detL : List (List ℚ) → ℚ
  | [] => 1
  | row :: rest =>
      ((List.range row.length).map
        (fun j => (-1 : ℚ) ^ j * row.getD j 0 *
          detL (rest.map (fun r => r.eraseIdx j)))).sum
termination_by m => m.length
decreasing_by simp only [List.length_map, List.length_cons]; omega

/-- Replace column `j` of a 2-D array by the entries of `v`. -/
def setColumn (m : List (List ℚ)) (v : List ℚ) (j : ℕ) : List (List ℚ) :=
  (m.zip v).map (fun rv => rv.1.set j rv.2)

/-- `jnp.linalg.solve` on a square system, modelled by Cramer's rule in exact
arithmetic; `none` models the error raised on a mismatched or singular
system. -/
def solve (m : List (List ℚ)) (v : List ℚ) : Option (List ℚ) :=
  let n := m.length
  if v.length = n ∧ m.all (fun row => row.length == n) = true ∧ detL m ≠ 0
  then some ((List.range n).map (fun j => detL (setColumn m v j) / detL m))
  else none

/-- One step of the filter loop:
`y_smoothed = index_update(y_smoothed, i, dot(c, y[i-wl2 : i+wl2+1]))`, the
slice modelled by `drop`/`take` and the dot shape-checked. -/
def savgolWrite (c y : List ℚ) (wl2 : ℕ) (acc : List ℚ) (i : ℕ) :
    Option (List ℚ) :=
  (dotVV c ((y.drop (i - wl2)).take (i + wl2 + 1 - (i - wl2)))).map
    (fun v => acc.set i v)

/-- The eager parameter validation at the top of `savgol_filter`, in source
order: the five `raise ValueError` checks, `none` when all pass.  `n` is the
length of the input array `y`. -/
def savgol_validate (n : ℕ) (window_length polyorder : ℤ) : Option String :=
  if window_length % 2 = 0 then some ("window_length must be odd")
  else if window_length < polyorder + 2 then
    some ("window_length is too small for the polynomials order")
  else if window_length > (n : ℤ) then
    some ("window_length is too large for input array")
  else if polyorder > window_length then
    some ("polyorder is too large for the window length")
  else if polyorder < 1 then some ("polyorder must be non-negative")
  else none

/-- `savgol_filter(y=y, window_length=window_length, polyorder=polyorder)`. -/
def savgol_filter (y : List ℚ) (window_length polyorder : ℤ) :
    Except String (List ℚ) :=
  if window_length % 2 = 0 then Except.error ("window_length must be odd")
  else if window_length < polyorder + 2 then
    Except.error ("window_length is too small for the polynomials order")
  else if window_length > (y.length : ℤ) then
    Except.error ("window_length is too large for input array")
  else if polyorder > window_length then
    Except.error ("polyorder is too large for the window length")
  else if polyorder < 1 then Except.error ("polyorder must be non-negative")
  else
    let w := window_length.toNat
    let p := polyorder.toNat
    let b := (List.range (p + 1)).map (fun i => (-1 : ℚ) ^ i)
    let A := vander (linspace (-1) 1 w) (p + 1)
    let AT := transposeM A
    match dotMM AT A with
    | none => Except.error ("shapes not aligned in dot")
    | some ATA =>
      match dotMV AT b with
      | none => Except.error ("shapes not aligned in dot")
      | some ATb =>
        match solve ATA ATb with
        | none => Except.error ("linalg solve failed")
        | some c =>
          let wl2 := w / 2
          let y0 := y.map (fun _ => (0 : ℚ))
          match (List.range' wl2 (y.length - 2 * wl2)).foldlM
              (savgolWrite c y wl2) y0 with
          | none => Except.error ("shapes not aligned in dot")
          | some out => Except.ok out

/-- C7: `savgol_filter` validates its parameters eagerly and in source order,
each violated precondition yielding its own distinct invalid-argument
message; in particular `window_length = 4` fails with the even-window error,
`window_length = 5, polyorder = 5` fails with the window-too-small error, and
whenever the validation rejects, the function returns exactly that error,
before any computation on `y`. -/
theorem savgol_filter_validation :
    (∀ y : List ℚ, savgol_filter y 4 2 =
      Except.error ("window_length must be odd")) ∧
    (∀ y : List ℚ, savgol_filter y 5 5 =
      Except.error ("window_length is too small for the polynomials order")) ∧
    List.Pairwise (fun a b => a ≠ b)
      ["window_length must be odd",
       "window_length is too small for the polynomials order",
       "window_length is too large for input array",
       "polyorder is too large for the window length",
       "polyorder must be non-negative"] ∧
    (∀ (y : List ℚ) (wl po : ℤ) (e : String),
      savgol_validate y.length wl po = some e →
      savgol_filter y wl po = Except.error e) := by
  refine ⟨fun y => by norm_num [savgol_filter], fun y => by
    norm_num [savgol_filter], by decide, fun y wl po e h => ?_⟩
  unfold savgol_validate at h
  unfold savgol_filter
  split_ifs at h ⊢ <;> simp_all

/-- Witness for C7: validation rejects `window_length = 7` on a length-3
input, and `savgol_filter` returns exactly that error. -/
theorem savgol_filter_validation_witness :
    savgol_validate ([1, 2, 3] : List ℚ).length 7 2 =
        some ("window_length is too large for input array") ∧
      savgol_filter ([1, 2, 3] : List ℚ) 7 2 =
        Except.error ("window_length is too large for input array") :=
  ⟨by decide,
    savgol_filter_validation.2.2.2 [1, 2, 3] 7 2
      ("window_length is too large for input array") (by decide)⟩

/-- C8 (evidence of the code bug): on the valid input
`y = [1,…,7], window_length = 5, polyorder = 2` the filter body stops with a
dot shape error — `A^T` has rows of length `window_length = 5` while `b` has
length `polyorder + 1 = 3` — so no smoothed array (zero-edged or otherwise)
is ever produced. -/
theorem savgol_filter_shape_bug :
    savgol_filter ([1, 2, 3, 4, 5, 6, 7] : List ℚ) 5 2 =
      Except.error ("shapes not aligned in dot") := by
  rfl

end DiscoEB
